import Mathlib

/-!
Verification development for the `diskcache_rs` repository: a process-local,
asynchronous key/value store that caches entries in memory (`HashMap` guarded
by a mutex) and mirrors every mutation to one file per key under a root
directory.  The embedding below follows the source files:

* `src/fs.rs`   — per-key file I/O shims over `tokio::fs`;
* `src/store.rs`— the `Action` protocol, the worker dispatch loop, `Store::close`;
* `src/client.rs`— the front handle (`Client`), `send_single_record_action`,
  `Client::close`.

The filesystem is modelled as an abstract `Disk` (does the root directory
exist, plus the association of file names to contents).  Each `tokio::fs`
primitive takes an extra `env : Option ErrorKind` argument: the environment's
choice of an injected I/O failure for that single call (`none` means the call
behaves according to the deterministic disk semantics, in which the only
failures are the not-found cases).  Machine-level concerns (bytes on disk,
UTF-8) are abstracted: values are `String`s, exactly as in the source.

A note on types, recorded here because it decides several claims: in the
committed sources, `fs.rs` declares all four shims as returning
`Option<String>` (via `result_to_option`, which Debug-formats the success
value with `format!("{:?}", t)` and maps every error to `None`), while the
worker loop in `store.rs` pattern-matches the very same calls against
`io::Result` constructors `Ok(())` / `Ok(Some(..))` / `Err(v)`.  The crate as
committed therefore does not typecheck.  Both layers are embedded faithfully:
the `Option`-returning functions exactly as `fs.rs` writes them, and, for the
worker, `Result`-typed variants (suffix `_r`) that keep `fs.rs`'s computation
and success/failure split (`result_to_option` maps `Ok ↦ Some`, `Err ↦ None`,
so the split is preserved) while giving each call the only type the `store.rs`
match arms accept.  Each `_r` definition documents its reading.
-/

namespace Diskcache

/-- The subset of `std::io::ErrorKind` relevant to this repository.
`notFound` is produced by reads/removals of missing files and by operations
under a missing root; `connectionRefused` is the kind the client attaches to
dispatch failures (`client.rs`); the others stand for arbitrary environmental
I/O failures. -/
inductive ErrorKind where
  | notFound
  | permissionDenied
  | connectionRefused
  | other
  deriving DecidableEq, Repr

/-- Association-list lookup; models both `HashMap::get` (on the cache) and
locating a file by name inside the root directory. -/
def assocLookup (l : List (String × String)) (k : String) : Option String :=
  match l with
  | [] => none
  | p :: rest => if p.1 = k then some p.2 else assocLookup rest k

/-- Association-list insert-or-replace; models `HashMap::insert`'s mutation
(the returned previous value is read with `assocLookup` beforehand) and
`fs::write` creating or overwriting a file. -/
def assocInsert (k v : String) (l : List (String × String)) :
    List (String × String) :=
  (k, v) :: l.filter (fun p => p.1 ≠ k)

/-- Association-list removal; models `HashMap::remove`'s mutation and
`fs::remove_file`. -/
def assocRemove (k : String) (l : List (String × String)) :
    List (String × String) :=
  l.filter (fun p => p.1 ≠ k)

/-- The durable state behind one store root: whether the root directory
exists, and the files under it (name ↦ contents). -/
structure Disk where
  rootExists : Bool
  files : List (String × String)
  deriving DecidableEq, Repr

/-- `tokio::fs::write(format!("{}/{}", store_path, key), value)`.  An injected
environment failure is reported as-is; otherwise the write succeeds exactly
when the root directory exists (writing under a missing directory fails with
`NotFound`). -/
def fsWrite (env : Option ErrorKind) (d : Disk) (k v : String) :
    Except ErrorKind Unit × Disk :=
  match env with
  | some e => (.error e, d)
  | none =>
      if d.rootExists then
        (.ok (), { d with files := assocInsert k v d.files })
      else
        (.error .notFound, d)

/-- `tokio::fs::read_to_string(format!("{}/{}", store_path, key))`.  Fails
with `NotFound` when the root or the file is missing. -/
def fsReadToString (env : Option ErrorKind) (d : Disk) (k : String) :
    Except ErrorKind String × Disk :=
  match env with
  | some e => (.error e, d)
  | none =>
      if d.rootExists then
        match assocLookup d.files k with
        | some v => (.ok v, d)
        | none => (.error .notFound, d)
      else
        (.error .notFound, d)

/-- `tokio::fs::remove_file(format!("{}/{}", store_path, key))`.  Fails with
`NotFound` when the root or the file is missing. -/
def fsRemoveFile (env : Option ErrorKind) (d : Disk) (k : String) :
    Except ErrorKind Unit × Disk :=
  match env with
  | some e => (.error e, d)
  | none =>
      if d.rootExists then
        match assocLookup d.files k with
        | some _ => (.ok (), { d with files := assocRemove k d.files })
        | none => (.error .notFound, d)
      else
        (.error .notFound, d)

/-- `tokio::fs::remove_dir_all(store_path)`.  Fails with `NotFound` when the
root is missing; on success the root and everything under it are gone. -/
def fsRemoveDirAll (env : Option ErrorKind) (d : Disk) :
    Except ErrorKind Unit × Disk :=
  match env with
  | some e => (.error e, d)
  | none =>
      if d.rootExists then (.ok (), ⟨false, []⟩)
      else (.error .notFound, d)

/-- Rust's `Debug` rendering of one character inside a string literal, for the
character classes this repository's data can contain (the repository's keys
and values are plain ASCII text). -/
def rustCharEscape (c : Char) : String :=
  if c = '"' then "\\\""
  else if c = '\\' then "\\\\"
  else if c = '\n' then "\\n"
  else if c = '\t' then "\\t"
  else if c = '\r' then "\\r"
  else String.singleton c

/-- Rust's `format!("{:?}", s)` for `s : String`: the contents wrapped in
double quotes, with escapes. -/
def debugFormatString (s : String) : String :=
  "\"" ++ String.join (s.toList.map rustCharEscape) ++ "\""

/-- Rust's `format!("{:?}", ())`. -/
def debugFormatUnit : Unit → String := fun _ => "()"

/-- `fs.rs::result_to_option` exactly as committed: the `Debug` rendering of
the success value, and `None` for every error.  `fmt` stands for the
`T: Debug` obligation. -/
def result_to_option {T : Type} (fmt : T → String) :
    Except ErrorKind T → Option String
  | .ok t => some (fmt t)
  | .error _ => none

/-- `fs.rs::save_to_file` exactly as committed (return type `Option<String>`):
write the file, then `result_to_option` of the write result. -/
def save_to_file (env : Option ErrorKind) (d : Disk) (key value : String) :
    Option String × Disk :=
  match fsWrite env d key value with
  | (result, d') => (result_to_option debugFormatUnit result, d')

/-- `fs.rs::get_from_file` exactly as committed (return type `Option<String>`):
read the file, then `result_to_option` of the read result — so a successful
read yields the `Debug`-formatted (quoted) contents, and every read error,
not-found included, yields `None`. -/
def get_from_file (env : Option ErrorKind) (d : Disk) (key : String) :
    Option String × Disk :=
  match fsReadToString env d key with
  | (result, d') => (result_to_option debugFormatString result, d')

/-- `fs.rs::remove_from_file` exactly as committed (return type
`Option<String>`): remove the file, then `result_to_option` of the result. -/
def remove_from_file (env : Option ErrorKind) (d : Disk) (key : String) :
    Option String × Disk :=
  match fsRemoveFile env d key with
  | (result, d') => (result_to_option debugFormatUnit result, d')

/-- `fs.rs::clear_from_file` exactly as committed: the `remove_dir_all` result
is discarded (`let _ = ...`), and the constant `None` is returned, so no wipe
failure can reach the caller. -/
def clear_from_file (env : Option ErrorKind) (d : Disk) :
    Option String × Disk :=
  match fsRemoveDirAll env d with
  | (_, d') => (none, d')

/-- `fs.rs::initialize_file_db`: `std::fs::create_dir_all(store_path)` with
the result discarded — idempotently ensures the root directory exists. -/
def init_file_db (d : Disk) : Disk :=
  if d.rootExists then d else ⟨true, []⟩

/-!
`Result`-typed readings of the `fs.rs` shims, as required by the match arms of
the worker loop in `store.rs` (see the file header): each keeps the underlying
primitive call and `fs.rs`'s success/failure split, typed as the worker's
patterns demand.
-/

/-- The `Set` arm matches `save_to_file` against `Err(v) / Ok(())`, so the
call must produce `io::Result<()>`: the underlying `fs::write` result.
`fs.rs`'s `result_to_option` wrapper preserves exactly this split
(`Some ↔ Ok`, `None ↔ Err`). -/
def save_to_file_r (env : Option ErrorKind) (d : Disk) (key value : String) :
    Except ErrorKind Unit × Disk :=
  fsWrite env d key value

/-- The `Get` arm needs `get_from_file` at type `io::Result<Option<String>>`.
`fs.rs` computes `result_to_option` of the read (debug-formatted contents on
success, `None` on any error); the only reading compatible with the arm's type
is that option wrapped in `Ok` — a read error, not-found included, is a
successful absent result, exactly as the spec's §4.1 describes. -/
def get_from_file_r (env : Option ErrorKind) (d : Disk) (key : String) :
    Except ErrorKind (Option String) × Disk :=
  match fsReadToString env d key with
  | (result, d') => (.ok (result_to_option debugFormatString result), d')

/-- The `Del` arm matches `remove_from_file` against `Err(v) / Ok(())`, so the
call must produce `io::Result<()>`: the underlying `fs::remove_file` result
(again the same split `fs.rs`'s wrapper preserves). -/
def remove_from_file_r (env : Option ErrorKind) (d : Disk) (key : String) :
    Except ErrorKind Unit × Disk :=
  fsRemoveFile env d key

/-- The `Clear` arm matches `clear_from_file` against `Ok(()) / Err(err)`.
`fs.rs::clear_from_file` discards the `remove_dir_all` result and returns a
constant, so the arm always receives the same branch; the repository's own
tests (`set_and_clear`, `persist_to_file_after_clear` expect the cache to be
emptied) pin that constant to the success branch `Ok(())`. -/
def clear_from_file_r (env : Option ErrorKind) (d : Disk) :
    Except ErrorKind Unit × Disk :=
  match fsRemoveDirAll env d with
  | (_, d') => (.ok (), d')

/-- `store.rs::Action` without the reply channels (replies are modelled as the
worker's returned `Response`). -/
inductive Action where
  | set (key value : String)
  | get (key : String)
  | del (key : String)
  | clear
  deriving DecidableEq, Repr

deriving instance DecidableEq for Except

/-- The typed payload a worker sends on an action's reply channel:
`io::Result<Option<String>>` for `Set`/`Get`/`Del`, `io::Result<()>` for
`Clear`. -/
inductive Response where
  | val (r : Except ErrorKind (Option String))
  | unit (r : Except ErrorKind Unit)
  deriving DecidableEq, Repr

/-- The state a worker mutates while holding both locks: the cache
(`db : HashMap<String, String>`) and the durable root. -/
structure StoreState where
  db : List (String × String)
  disk : Disk
  deriving DecidableEq, Repr

/-- `Store::new`'s data initialization: empty cache, `initialize_file_db` on
the root. -/
def freshStore (d : Disk) : StoreState :=
  ⟨[], init_file_db d⟩

/-- One iteration's `match action { .. }` body from the worker loop in
`store.rs::generate_handlers`, acting on the state under both locks: the file
operation first, then (only on its success) the cache mutation, and the value
passed to `resp.send`.  `env` is the environment's failure injection for the
single file-system call the action performs. -/
def applyAction (env : Option ErrorKind) (s : StoreState) :
    Action → Response × StoreState
  | .set key value =>
      match save_to_file_r env s.disk key value with
      | (.error e, d') => (.val (.error e), { s with disk := d' })
      | (.ok _, d') =>
          (.val (.ok (assocLookup s.db key)),
           ⟨assocInsert key value s.db, d'⟩)
  | .get key =>
      match assocLookup s.db key with
      | some v => (.val (.ok (some v)), s)
      | none =>
          match get_from_file_r env s.disk key with
          | (r, d') => (.val r, { s with disk := d' })
  | .del key =>
      match remove_from_file_r env s.disk key with
      | (.error e, d') => (.val (.error e), { s with disk := d' })
      | (.ok _, d') =>
          (.val (.ok (assocLookup s.db key)),
           ⟨assocRemove key s.db, d'⟩)
  | .clear =>
      match clear_from_file_r env s.disk with
      | (.ok _, d') => (.unit (.ok ()), ⟨[], d'⟩)
      | (.error e, d') => (.unit (.error e), { s with disk := d' })

/-!
Interleaving model of the worker pool (`store.rs::generate_handlers`).
Each worker loops: lock the shared receiver, then (still holding it) lock the
cache, pull one action, apply it — the file operation, then the cache
mutation and reply — and release both locks at the end of the iteration
(the two `MutexGuard`s drop at the end of the loop body).  To make the
serialization claim meaningful the application is split into micro-steps
(`fileStep`, then `cacheStep`), each a separate scheduler transition, so that
an unprotected pool could interleave two actions' halves; the theorem shows
the lock discipline forbids it.
-/

/-- The intermediate result a worker holds between its file operation and its
cache mutation: `io::Result<()>` for `Set`/`Del`/`Clear`, the computed
`io::Result<Option<String>>` for `Get`. -/
inductive FileRes where
  | unitRes (r : Except ErrorKind Unit)
  | valRes (r : Except ErrorKind (Option String))
  deriving DecidableEq, Repr

/-- The file-operation half of one action, exactly the calls the worker's
arms make before touching the cache (for `Get`, the cache probe `db.get` is a
read under the held lock and decides whether the file is consulted). -/
def fileStep (db : List (String × String)) (a : Action) (d : Disk) :
    FileRes × Disk :=
  match a with
  | .set k v =>
      match save_to_file_r none d k v with
      | (r, d') => (.unitRes r, d')
  | .get k =>
      match assocLookup db k with
      | some v => (.valRes (.ok (some v)), d)
      | none =>
          match get_from_file_r none d k with
          | (r, d') => (.valRes r, d')
  | .del k =>
      match remove_from_file_r none d k with
      | (r, d') => (.unitRes r, d')
  | .clear =>
      match clear_from_file_r none d with
      | (r, d') => (.unitRes r, d')

/-- The cache-mutation-and-reply half of one action, dispatching on the file
result exactly as the worker's arms do. -/
def cacheStep (a : Action) (fr : FileRes) (db : List (String × String)) :
    List (String × String) × Response :=
  match a, fr with
  | .set k v, .unitRes (.ok _) =>
      (assocInsert k v db, .val (.ok (assocLookup db k)))
  | .set _ _, .unitRes (.error e) => (db, .val (.error e))
  | .get _, .valRes r => (db, .val r)
  | .del k, .unitRes (.ok _) =>
      (assocRemove k db, .val (.ok (assocLookup db k)))
  | .del _, .unitRes (.error e) => (db, .val (.error e))
  | .clear, .unitRes (.ok _) => ([], .unit (.ok ()))
  | .clear, .unitRes (.error e) => (db, .unit (.error e))
  | _, _ => (db, .unit (.ok ()))

/-- Sequential reference semantics: the queue's actions applied one at a time
in admission order. -/
def seqRun (s : StoreState) : List Action → StoreState
  | [] => s
  | a :: rest => seqRun (applyAction none s a).2 rest

/-- Where one worker stands in its loop: before any lock, holding the
receiver, holding both locks, holding both with a pulled action whose file
operation is pending, or holding both with the file operation done. -/
inductive Phase where
  | idle
  | hasRecv
  | hasBoth
  | running (a : Action)
  | mid (a : Action) (fr : FileRes)
  deriving DecidableEq, Repr

/-- A worker is busy when it is between pulling an action and finishing it. -/
def isBusy : Phase → Bool
  | .running _ => true
  | .mid _ _ => true
  | _ => false

/-- The whole pool: the pending queue (in admission order), the two lock
owners, the shared store state, each worker's phase, and the actions already
fully applied, in completion order. -/
structure Sys (n : Nat) where
  queue : List Action
  recvOwner : Option (Fin n)
  cacheOwner : Option (Fin n)
  st : StoreState
  phases : Fin n → Phase
  done : List Action

/-- The pool right after `Store::new`: all of `q0` admitted, no locks held,
every worker at the loop top. -/
def initSys (n : Nat) (q0 : List Action) (st0 : StoreState) : Sys n :=
  ⟨q0, none, none, st0, fun _ => .idle, []⟩

/-- One scheduler transition of the pool.  Lock acquisitions require the lock
to be free; the pull and the two application micro-steps require only the
acting worker's phase — that the lock discipline nevertheless serializes them
is what the invariant proves. -/
inductive Step {n : Nat} : Sys n → Sys n → Prop where
  | lockRecv (t : Sys n) (w : Fin n)
      (hp : t.phases w = .idle) (hr : t.recvOwner = none) :
      Step t { t with recvOwner := some w,
                      phases := Function.update t.phases w .hasRecv }
  | lockCache (t : Sys n) (w : Fin n)
      (hp : t.phases w = .hasRecv) (hc : t.cacheOwner = none) :
      Step t { t with cacheOwner := some w,
                      phases := Function.update t.phases w .hasBoth }
  | pull (t : Sys n) (w : Fin n) (a : Action) (q : List Action)
      (hp : t.phases w = .hasBoth) (hq : t.queue = a :: q) :
      Step t { t with queue := q,
                      phases := Function.update t.phases w (.running a) }
  | fileOp (t : Sys n) (w : Fin n) (a : Action)
      (hp : t.phases w = .running a) :
      Step t { t with
        st := { t.st with disk := (fileStep t.st.db a t.st.disk).2 },
        phases := Function.update t.phases w
          (.mid a (fileStep t.st.db a t.st.disk).1) }
  | finish (t : Sys n) (w : Fin n) (a : Action) (fr : FileRes)
      (hp : t.phases w = .mid a fr) :
      Step t { t with
        st := { t.st with db := (cacheStep a fr t.st.db).1 },
        recvOwner := none, cacheOwner := none,
        phases := Function.update t.phases w .idle,
        done := t.done ++ [a] }

/-- The inductive invariant: any worker past the loop top owns the receiver
lock (hence at most one such worker), and the shared state is the sequential
execution of `done`, with a busy worker's action accounted for explicitly. -/
structure Inv (st0 : StoreState) (q0 : List Action) {n : Nat}
    (s : Sys n) : Prop where
  recv_of_nonIdle : ∀ w, s.phases w ≠ .idle → s.recvOwner = some w
  coh_quiet : (∀ w, isBusy (s.phases w) = false) →
      s.done ++ s.queue = q0 ∧ s.st = seqRun st0 s.done
  coh_running : ∀ w a, s.phases w = .running a →
      s.done ++ a :: s.queue = q0 ∧ s.st = seqRun st0 s.done
  coh_mid : ∀ w a fr, s.phases w = .mid a fr →
      s.done ++ a :: s.queue = q0
      ∧ s.st.db = (seqRun st0 s.done).db
      ∧ fr = (fileStep (seqRun st0 s.done).db a (seqRun st0 s.done).disk).1
      ∧ s.st.disk = (fileStep (seqRun st0 s.done).db a (seqRun st0 s.done).disk).2

/-!
The worker's two `unwrap` points (`store.rs::generate_handlers`):
`rv.recv().await.unwrap()` when pulling the next action, and
`resp.send(..).unwrap()` in every reply.  An `unwrap` on `None` / `Err`
panics the spawned task.
-/

/-- What `mpsc::Receiver::recv` yields: the next queued action, `None` once
the channel is closed and drained, or a pending wait while the channel is
open and empty. -/
inductive RecvResult where
  | got (a : Action)
  | closedEmpty
  | pending
  deriving DecidableEq, Repr

/-- `tokio::sync::mpsc::Receiver::recv().await` over the queue contents and
the channel's closed flag. -/
def mpscRecv (queue : List Action) (closed : Bool) : RecvResult :=
  match queue with
  | a :: _ => .got a
  | [] => if closed then .closedEmpty else .pending

/-- How one pull attempt at the top of the worker loop ends.  `exitedLoop`
is the graceful termination the spec describes; it is needed to state that
behavior, and the code never produces it. -/
inductive PullOutcome where
  | pulled (a : Action)
  | exitedLoop
  | panicked
  | blocked
  deriving DecidableEq, Repr

/-- `let action = rv.recv().await.unwrap();` — the worker's pull step: the
`unwrap` turns `recv`'s `None` (queue closed and empty) into a panic of the
worker task. -/
def workerPull (queue : List Action) (closed : Bool) : PullOutcome :=
  match mpscRecv queue closed with
  | .got a => .pulled a
  | .closedEmpty => .panicked
  | .pending => .blocked

/-- `oneshot::Sender::send` delivers exactly when the caller still holds the
receiving half. -/
inductive SendResult where
  | delivered
  | dropped
  deriving DecidableEq, Repr

def oneshotSend (receiverAlive : Bool) : SendResult :=
  if receiverAlive then .delivered else .dropped

/-- How processing one action ends for the worker: continue to the next loop
iteration, or panic. -/
inductive WorkerOutcome where
  | next
  | panicked
  deriving DecidableEq, Repr

/-- One action processed by the worker body, reply included: the state is
mutated by `applyAction` (the cache insert happens while evaluating
`resp.send`'s argument), then `resp.send(..).unwrap()` — which panics the
worker task when the caller has dropped the reply receiver
(`receiverAlive = false`).  The delivered response, when any, is returned. -/
def processOne (env : Option ErrorKind) (receiverAlive : Bool)
    (s : StoreState) (a : Action) :
    WorkerOutcome × StoreState × Option Response :=
  match applyAction env s a with
  | (resp, s') =>
      match oneshotSend receiverAlive with
      | .delivered => (.next, s', some resp)
      | .dropped => (.panicked, s', none)

/-!
The front handle (`client.rs`) and the store lifecycle (`store.rs::close`).
-/

/-- `client.rs::Client::send_single_record_action`: a failed `mpsc` send
(receiver closed, i.e. the store shut down) and a dropped reply channel are
both surfaced as `ErrorKind::ConnectionRefused`; otherwise the worker's reply
is returned as-is. -/
def send_single_record_action {T : Type} (receiverClosed : Bool)
    (reply : Option (Except ErrorKind T)) : Except ErrorKind T :=
  if receiverClosed then .error .connectionRefused
  else
    match reply with
    | none => .error .connectionRefused
    | some r => r

/-- The lifecycle state `Store::close` manipulates: the `is_finished` flag of
each spawned worker task, and whether the dispatch queue's receiving end has
been closed. -/
structure StoreHandle where
  handlers : List Bool
  receiverClosed : Bool
  deriving DecidableEq, Repr

def allFinished (hs : List Bool) : Bool :=
  hs.all (fun b => b)

/-- The polling loop of `Store::close`: each round sleeps 200 ms — during
which the scheduler `sched` makes progress on the aborted tasks — then breaks
exactly when every handler `is_finished()`.  Fuel bounds the rounds observed;
`none` means the loop was still polling after `fuel` rounds (`close` has not
returned yet). -/
def pollLoop (sched : List Bool → List Bool) :
    Nat → List Bool → Option (List Bool)
  | 0, _ => none
  | Nat.succ fuel, hs =>
      if allFinished (sched hs) then some (sched hs)
      else pollLoop sched fuel (sched hs)

/-- `store.rs::Store::close`: abort every handler (cooperative cancellation,
completion timing left to `sched`), poll until all are finished, and only
then close the queue's receiving end. -/
def storeClose (sched : List Bool → List Bool) (fuel : Nat)
    (st : StoreHandle) : Option StoreHandle :=
  match pollLoop sched fuel st.handlers with
  | some hs => some { handlers := hs, receiverClosed := true }
  | none => none

/-- The one field of `client.rs::Client` relevant to `close`: the
`Option<Store>` slot. -/
structure ClientSt where
  store : Option Unit
  deriving DecidableEq, Repr

/-- How one `Client::close` call ends. -/
inductive CloseOutcome where
  | closedOk (c : ClientSt)
  | panicked
  deriving DecidableEq, Repr

/-- `client.rs::Client::close`: `self.store.take().unwrap()` — the first call
takes the store out of the slot and closes it; a call on an already-emptied
slot unwraps `None` and panics. -/
def clientCloseOnce (c : ClientSt) : CloseOutcome :=
  match c.store with
  | some _ => .closedOk { store := none }
  | none => .panicked

/-!
A concrete execution of the pool model: two workers, two `Set`s for the same
key admitted in order, driven step by step to quiescence.  Each state is
written exactly as the corresponding `Step` constructor produces it.
-/

def c2q : List Action := [.set "k" "v1", .set "k" "v2"]

def c2st0 : StoreState := freshStore ⟨false, []⟩

def c2s0 : Sys 2 := initSys 2 c2q c2st0

def c2s1 : Sys 2 :=
  { c2s0 with recvOwner := some 0,
              phases := Function.update c2s0.phases 0 .hasRecv }

def c2s2 : Sys 2 :=
  { c2s1 with cacheOwner := some 0,
              phases := Function.update c2s1.phases 0 .hasBoth }

def c2s3 : Sys 2 :=
  { c2s2 with queue := [.set "k" "v2"],
              phases := Function.update c2s2.phases 0 (.running (.set "k" "v1")) }

def c2s4 : Sys 2 :=
  { c2s3 with
    st := { c2s3.st with disk := (fileStep c2s3.st.db (.set "k" "v1") c2s3.st.disk).2 },
    phases := Function.update c2s3.phases 0
      (.mid (.set "k" "v1") (fileStep c2s3.st.db (.set "k" "v1") c2s3.st.disk).1) }

def c2s5 : Sys 2 :=
  { c2s4 with
    st := { c2s4.st with
      db := (cacheStep (.set "k" "v1")
        (fileStep c2s3.st.db (.set "k" "v1") c2s3.st.disk).1 c2s4.st.db).1 },
    recvOwner := none, cacheOwner := none,
    phases := Function.update c2s4.phases 0 .idle,
    done := c2s4.done ++ [.set "k" "v1"] }

def c2s6 : Sys 2 :=
  { c2s5 with recvOwner := some 0,
              phases := Function.update c2s5.phases 0 .hasRecv }

def c2s7 : Sys 2 :=
  { c2s6 with cacheOwner := some 0,
              phases := Function.update c2s6.phases 0 .hasBoth }

def c2s8 : Sys 2 :=
  { c2s7 with queue := [],
              phases := Function.update c2s7.phases 0 (.running (.set "k" "v2")) }

def c2s9 : Sys 2 :=
  { c2s8 with
    st := { c2s8.st with disk := (fileStep c2s8.st.db (.set "k" "v2") c2s8.st.disk).2 },
    phases := Function.update c2s8.phases 0
      (.mid (.set "k" "v2") (fileStep c2s8.st.db (.set "k" "v2") c2s8.st.disk).1) }

def c2s10 : Sys 2 :=
  { c2s9 with
    st := { c2s9.st with
      db := (cacheStep (.set "k" "v2")
        (fileStep c2s8.st.db (.set "k" "v2") c2s8.st.disk).1 c2s9.st.db).1 },
    recvOwner := none, cacheOwner := none,
    phases := Function.update c2s9.phases 0 .idle,
    done := c2s9.done ++ [.set "k" "v2"] }

/-!
Helper theorems about the embedding.
-/

/-- The two halves compose to the worker body: `applyAction` is `fileStep`
followed by `cacheStep`. -/
theorem applyAction_decomp (s : StoreState) (a : Action) :
    applyAction none s a =
      ((cacheStep a (fileStep s.db a s.disk).1 s.db).2,
       ⟨(cacheStep a (fileStep s.db a s.disk).1 s.db).1,
        (fileStep s.db a s.disk).2⟩) := by
  cases a with
  | set k v =>
      cases hw : save_to_file_r none s.disk k v with
      | mk r d => cases r <;> simp [applyAction, fileStep, cacheStep, hw]
  | get k =>
      cases hl : assocLookup s.db k with
      | none =>
          cases hg : get_from_file_r none s.disk k with
          | mk r d => simp [applyAction, fileStep, cacheStep, hl, hg]
      | some v => simp [applyAction, fileStep, cacheStep, hl]
  | del k =>
      cases hr : remove_from_file_r none s.disk k with
      | mk r d => cases r <;> simp [applyAction, fileStep, cacheStep, hr]
  | clear =>
      cases hc : clear_from_file_r none s.disk with
      | mk r d => cases r <;> simp [applyAction, fileStep, cacheStep, hc]
theorem seqRun_append (s : StoreState) (l1 l2 : List Action) :
    seqRun s (l1 ++ l2) = seqRun (seqRun s l1) l2 := by
  induction l1 generalizing s with
  | nil => rfl
  | cons a t ih => simp [seqRun, ih]
theorem isBusy_ne_idle {p : Phase} (h : isBusy p = true) : p ≠ .idle := by
  intro he; subst he; simp [isBusy] at h
theorem nonIdle_unique {st0 : StoreState} {q0 : List Action} {n : Nat}
    {s : Sys n} (hI : Inv st0 q0 s) (w w' : Fin n)
    (hw : s.phases w ≠ .idle) (hw' : s.phases w' ≠ .idle) : w = w' := by
  have h1 := hI.recv_of_nonIdle w hw
  have h2 := hI.recv_of_nonIdle w' hw'
  rw [h1] at h2
  exact Option.some.inj h2
theorem allIdle_of_recvNone {st0 : StoreState} {q0 : List Action} {n : Nat}
    {s : Sys n} (hI : Inv st0 q0 s) (h : s.recvOwner = none) :
    ∀ w, s.phases w = .idle := by
  intro w
  by_contra hw
  have hsome := hI.recv_of_nonIdle w hw
  rw [h] at hsome
  exact Option.noConfusion hsome

theorem inv_init (st0 : StoreState) (q0 : List Action) (n : Nat) :
    Inv st0 q0 (initSys n q0 st0) := by
  refine ⟨?_, ?_, ?_, ?_⟩
  · intro w hw; exact absurd rfl hw
  · intro _; exact ⟨rfl, rfl⟩
  · intro w a hp; exact absurd hp (by simp [initSys])
  · intro w a fr hp; exact absurd hp (by simp [initSys])

theorem onlyActor {st0 : StoreState} {q0 : List Action} {n : Nat}
    {s : Sys n} (hI : Inv st0 q0 s) {w : Fin n} (hw : s.phases w ≠ .idle) :
    ∀ w', w' ≠ w → s.phases w' = .idle := by
  intro w' hne
  by_contra hw'
  exact hne (nonIdle_unique hI w' w hw' hw)

/-- The invariant is preserved by every scheduler transition. -/
theorem inv_step {st0 : StoreState} {q0 : List Action} {n : Nat}
    {s s' : Sys n} (hI : Inv st0 q0 s) (hs : Step s s') : Inv st0 q0 s' := by
  cases hs with
  | lockRecv w hp hr =>
      have hall := allIdle_of_recvNone hI hr
      refine ⟨?_, ?_, ?_, ?_⟩
      · intro w' hw'
        dsimp only at hw' ⊢
        by_cases hww : w' = w
        · subst hww; rfl
        · exfalso
          rw [Function.update_noteq hww] at hw'
          exact hw' (hall w')
      · intro _
        have hfree0 : ∀ w', isBusy (s.phases w') = false := by
          intro w'; rw [hall w']; rfl
        exact hI.coh_quiet hfree0
      · intro w' a hp'
        dsimp only at hp'
        by_cases hww : w' = w
        · subst hww; rw [Function.update_same] at hp'; cases hp'
        · rw [Function.update_noteq hww, hall w'] at hp'; cases hp'
      · intro w' a fr hp'
        dsimp only at hp'
        by_cases hww : w' = w
        · subst hww; rw [Function.update_same] at hp'; cases hp'
        · rw [Function.update_noteq hww, hall w'] at hp'; cases hp'
  | lockCache w hp hc =>
      have hnw : s.phases w ≠ .idle := by rw [hp]; intro h; cases h
      have honly := onlyActor hI hnw
      have hrw := hI.recv_of_nonIdle w hnw
      refine ⟨?_, ?_, ?_, ?_⟩
      · intro w' hw'
        dsimp only at hw' ⊢
        by_cases hww : w' = w
        · subst hww; exact hrw
        · exfalso
          rw [Function.update_noteq hww] at hw'
          exact hw' (honly w' hww)
      · intro _
        have hfree0 : ∀ w', isBusy (s.phases w') = false := by
          intro w'
          by_cases hww : w' = w
          · subst hww; rw [hp]; rfl
          · rw [honly w' hww]; rfl
        exact hI.coh_quiet hfree0
      · intro w' a hp'
        dsimp only at hp'
        by_cases hww : w' = w
        · subst hww; rw [Function.update_same] at hp'; cases hp'
        · rw [Function.update_noteq hww, honly w' hww] at hp'; cases hp'
      · intro w' a fr hp'
        dsimp only at hp'
        by_cases hww : w' = w
        · subst hww; rw [Function.update_same] at hp'; cases hp'
        · rw [Function.update_noteq hww, honly w' hww] at hp'; cases hp'
  | pull w a q hp hq =>
      have hnw : s.phases w ≠ .idle := by rw [hp]; intro h; cases h
      have honly := onlyActor hI hnw
      have hrw := hI.recv_of_nonIdle w hnw
      have hfree0 : ∀ w', isBusy (s.phases w') = false := by
        intro w'
        by_cases hww : w' = w
        · subst hww; rw [hp]; rfl
        · rw [honly w' hww]; rfl
      obtain ⟨htr, hst⟩ := hI.coh_quiet hfree0
      rw [hq] at htr
      refine ⟨?_, ?_, ?_, ?_⟩
      · intro w' hw'
        dsimp only at hw' ⊢
        by_cases hww : w' = w
        · subst hww; exact hrw
        · exfalso
          rw [Function.update_noteq hww] at hw'
          exact hw' (honly w' hww)
      · intro hfree
        exfalso
        have hb := hfree w
        dsimp only at hb
        rw [Function.update_same] at hb
        simp [isBusy] at hb
      · intro w' a' hp'
        dsimp only at hp'
        by_cases hww : w' = w
        · subst hww
          rw [Function.update_same] at hp'
          cases hp'
          exact ⟨htr, hst⟩
        · rw [Function.update_noteq hww, honly w' hww] at hp'; cases hp'
      · intro w' a' fr' hp'
        dsimp only at hp'
        by_cases hww : w' = w
        · subst hww; rw [Function.update_same] at hp'; cases hp'
        · rw [Function.update_noteq hww, honly w' hww] at hp'; cases hp'
  | fileOp w a hp =>
      have hnw : s.phases w ≠ .idle := by rw [hp]; intro h; cases h
      have honly := onlyActor hI hnw
      have hrw := hI.recv_of_nonIdle w hnw
      obtain ⟨htr, hst⟩ := hI.coh_running w a hp
      refine ⟨?_, ?_, ?_, ?_⟩
      · intro w' hw'
        dsimp only at hw' ⊢
        by_cases hww : w' = w
        · subst hww; exact hrw
        · exfalso
          rw [Function.update_noteq hww] at hw'
          exact hw' (honly w' hww)
      · intro hfree
        exfalso
        have hb := hfree w
        dsimp only at hb
        rw [Function.update_same] at hb
        simp [isBusy] at hb
      · intro w' a' hp'
        dsimp only at hp'
        by_cases hww : w' = w
        · subst hww; rw [Function.update_same] at hp'; cases hp'
        · rw [Function.update_noteq hww, honly w' hww] at hp'; cases hp'
      · intro w' a' fr' hp'
        dsimp only at hp'
        by_cases hww : w' = w
        · subst hww
          rw [Function.update_same] at hp'
          cases hp'
          refine ⟨htr, ?_, ?_, ?_⟩
          · dsimp only; rw [hst]
          · rw [hst]
          · dsimp only; rw [hst]
        · rw [Function.update_noteq hww, honly w' hww] at hp'; cases hp'
  | finish w a fr hp =>
      have hnw : s.phases w ≠ .idle := by rw [hp]; intro h; cases h
      have honly := onlyActor hI hnw
      obtain ⟨htr, hdb, hfr, hdisk⟩ := hI.coh_mid w a fr hp
      refine ⟨?_, ?_, ?_, ?_⟩
      · intro w' hw'
        exfalso
        dsimp only at hw'
        by_cases hww : w' = w
        · subst hww; rw [Function.update_same] at hw'; exact hw' rfl
        · rw [Function.update_noteq hww] at hw'; exact hw' (honly w' hww)
      · intro _
        constructor
        · dsimp only
          rw [List.append_assoc, List.singleton_append]
          exact htr
        · dsimp only
          rw [seqRun_append]
          simp only [seqRun]
          rw [congrArg Prod.snd (applyAction_decomp (seqRun st0 s.done) a)]
          rw [show ({ s.st with db := (cacheStep a fr s.st.db).1 } : StoreState)
                = ⟨(cacheStep a fr s.st.db).1, s.st.disk⟩ from rfl]
          rw [hdb, hfr, hdisk]
      · intro w' a' hp'
        dsimp only at hp'
        by_cases hww : w' = w
        · subst hww; rw [Function.update_same] at hp'; cases hp'
        · rw [Function.update_noteq hww, honly w' hww] at hp'; cases hp'
      · intro w' a' fr' hp'
        dsimp only at hp'
        by_cases hww : w' = w
        · subst hww; rw [Function.update_same] at hp'; cases hp'
        · rw [Function.update_noteq hww, honly w' hww] at hp'; cases hp'

/-- Every reachable pool state satisfies the invariant. -/
theorem inv_reach {st0 : StoreState} {q0 : List Action} {n : Nat}
    {s : Sys n} (h : Relation.ReflTransGen Step (initSys n q0 st0) s) :
    Inv st0 q0 s := by
  induction h with
  | refl => exact inv_init st0 q0 n
  | tail _ hstep ih => exact inv_step ih hstep

theorem assocLookup_insert_self (k v : String) (l : List (String × String)) :
    assocLookup (assocInsert k v l) k = some v := by
  simp [assocInsert, assocLookup]

theorem c2_chain : Relation.ReflTransGen Step c2s0 c2s10 := by
  have s01 : Step c2s0 c2s1 := Step.lockRecv c2s0 0 rfl rfl
  have s12 : Step c2s1 c2s2 := Step.lockCache c2s1 0 rfl rfl
  have s23 : Step c2s2 c2s3 :=
    Step.pull c2s2 0 (.set "k" "v1") [.set "k" "v2"] rfl rfl
  have s34 : Step c2s3 c2s4 := Step.fileOp c2s3 0 (.set "k" "v1") rfl
  have s45 : Step c2s4 c2s5 :=
    Step.finish c2s4 0 (.set "k" "v1")
      (fileStep c2s3.st.db (.set "k" "v1") c2s3.st.disk).1 rfl
  have s56 : Step c2s5 c2s6 := Step.lockRecv c2s5 0 rfl rfl
  have s67 : Step c2s6 c2s7 := Step.lockCache c2s6 0 rfl rfl
  have s78 : Step c2s7 c2s8 :=
    Step.pull c2s7 0 (.set "k" "v2") [] rfl rfl
  have s89 : Step c2s8 c2s9 := Step.fileOp c2s8 0 (.set "k" "v2") rfl
  have s910 : Step c2s9 c2s10 :=
    Step.finish c2s9 0 (.set "k" "v2")
      (fileStep c2s8.st.db (.set "k" "v2") c2s8.st.disk).1 rfl
  exact .head s01 (.head s12 (.head s23 (.head s34 (.head s45 (.head s56
    (.head s67 (.head s78 (.head s89 (.head s910 .refl)))))))))

/-- C2: no two actions are ever applied concurrently — any two busy workers
in a reachable pool state are the same worker, so the lock pairing serializes
the pool; consequently, once the queue is drained and no worker is mid-action,
the shared state is exactly the sequential execution of the admitted queue in
admission order, and for concurrent `set(k, v1)` then `set(k, v2)` (in
admission order) the final `get(k)` answers the last admitted write, with no
lost update or interleaved partial write. -/
theorem c2_strict_serialization {n : Nat} (st0 : StoreState)
    (q0 : List Action) (s : Sys n)
    (h : Relation.ReflTransGen Step (initSys n q0 st0) s) :
    (∀ w w', isBusy (s.phases w) = true → isBusy (s.phases w') = true → w = w')
    ∧ (s.queue = [] → (∀ w, isBusy (s.phases w) = false) →
        s.done = q0 ∧ s.st = seqRun st0 q0)
    ∧ (∀ k v1 v2, q0 = [Action.set k v1, Action.set k v2] →
        st0 = freshStore ⟨false, []⟩ →
        s.queue = [] → (∀ w, isBusy (s.phases w) = false) →
        (applyAction none s.st (.get k)).1 = .val (.ok (some v2))) := by
  have hI := inv_reach h
  refine ⟨?_, ?_, ?_⟩
  · intro w w' hw hw'
    exact nonIdle_unique hI w w' (isBusy_ne_idle hw) (isBusy_ne_idle hw')
  · intro hq hfree
    obtain ⟨h1, h2⟩ := hI.coh_quiet hfree
    rw [hq, List.append_nil] at h1
    exact ⟨h1, by rw [h2, h1]⟩
  · intro k v1 v2 hq0 hst0 hq hfree
    obtain ⟨h1, h2⟩ := hI.coh_quiet hfree
    rw [hq, List.append_nil] at h1
    rw [h2, h1, hq0, hst0]
    simp [seqRun, freshStore, init_file_db, applyAction, save_to_file_r,
      fsWrite, assocLookup_insert_self]

/-- Witness for C2: the two-`Set` queue driven through an explicit ten-step
schedule of the pool model; the final `get("k")` answers the second write. -/
theorem c2_strict_serialization_witness :
    (applyAction none c2s10.st (.get "k")).1 = .val (.ok (some "v2")) := by
  have h := c2_strict_serialization c2st0 c2q c2s10 c2_chain
  exact h.2.2 "k" "v1" "v2" rfl rfl rfl (by decide)

/-- C1: evaluation of the write-through round trip at the failing input
`set("hey", "English")`.  The set succeeds and an immediate `get` (cache hit)
returns the value, but after a simulated restart (fresh store over the same
root) the `get` is served from disk through `get_from_file` /
`result_to_option`, which Debug-formats the file contents — the caller
receives `"\"English\""`, not the stored `"English"`, contradicting the claim
and the repository's own `persist_to_file` test. -/
theorem c1_restart_roundtrip_evaluation :
    (applyAction none (freshStore ⟨false, []⟩) (.set "hey" "English")).1
      = .val (.ok none)
    ∧ (applyAction none
        ((applyAction none (freshStore ⟨false, []⟩) (.set "hey" "English")).2)
        (.get "hey")).1 = .val (.ok (some "English"))
    ∧ (applyAction none
        (freshStore ((applyAction none (freshStore ⟨false, []⟩)
          (.set "hey" "English")).2.disk)) (.get "hey")).1
        = .val (.ok (some "\"English\""))
    ∧ (get_from_file none
        ((save_to_file none (init_file_db ⟨false, []⟩) "hey" "English").2)
        "hey").1 = some "\"English\""
    ∧ ("\"English\"" : String) ≠ "English" := by decide

/-- C3: error atomicity of single-key mutations — if the file operation of a
`Set` or `Del` fails, the cache is left unchanged and exactly that failure is
the action's response. -/
theorem c3_mutation_error_atomicity (env : Option ErrorKind) (s : StoreState)
    (k v : String) (e : ErrorKind) :
    ((fsWrite env s.disk k v).1 = .error e →
      (applyAction env s (.set k v)).1 = .val (.error e)
      ∧ (applyAction env s (.set k v)).2.db = s.db)
    ∧ ((fsRemoveFile env s.disk k).1 = .error e →
      (applyAction env s (.del k)).1 = .val (.error e)
      ∧ (applyAction env s (.del k)).2.db = s.db) := by
  constructor
  · intro hw
    rcases hq : fsWrite env s.disk k v with ⟨r, d⟩
    rw [hq] at hw
    cases r with
    | ok u => exact absurd hw (by simp)
    | error e2 =>
        have he : e2 = e := by simpa using hw
        subst he
        constructor <;> simp [applyAction, save_to_file_r, hq]
  · intro hw
    rcases hq : fsRemoveFile env s.disk k with ⟨r, d⟩
    rw [hq] at hw
    cases r with
    | ok u => exact absurd hw (by simp)
    | error e2 =>
        have he : e2 = e := by simpa using hw
        subst he
        constructor <;> simp [applyAction, remove_from_file_r, hq]

/-- Witness for C3: an injected `PermissionDenied` on the file write and on
the file removal, over a store caching `("a", "b")`: the response carries the
failure and the cache is untouched in both cases. -/
theorem c3_mutation_error_atomicity_witness :
    ((applyAction (some .permissionDenied)
        ⟨[("a", "b")], ⟨true, [("a", "b")]⟩⟩ (.set "a" "c")).1
      = .val (.error .permissionDenied)
    ∧ (applyAction (some .permissionDenied)
        ⟨[("a", "b")], ⟨true, [("a", "b")]⟩⟩ (.set "a" "c")).2.db
      = [("a", "b")])
    ∧ ((applyAction (some .permissionDenied)
        ⟨[("a", "b")], ⟨true, [("a", "b")]⟩⟩ (.del "a")).1
      = .val (.error .permissionDenied)
    ∧ (applyAction (some .permissionDenied)
        ⟨[("a", "b")], ⟨true, [("a", "b")]⟩⟩ (.del "a")).2.db
      = [("a", "b")]) := by
  refine ⟨?_, ?_⟩
  · exact (c3_mutation_error_atomicity (some .permissionDenied)
      ⟨[("a", "b")], ⟨true, [("a", "b")]⟩⟩ "a" "c" .permissionDenied).1
      (by decide)
  · exact (c3_mutation_error_atomicity (some .permissionDenied)
      ⟨[("a", "b")], ⟨true, [("a", "b")]⟩⟩ "a" "c" .permissionDenied).2
      (by decide)

/-- C4 counterexample: the claim says a reply-channel send failure is
swallowed and the worker continues; but with the reply receiver dropped the
worker's `resp.send(..).unwrap()` panics — the outcome is `panicked`, not
`next`. -/
theorem c4_reply_failure_counterexample :
    (processOne none false ⟨[], ⟨true, []⟩⟩ (.get "k")).1 = .panicked
    ∧ (processOne none false ⟨[], ⟨true, []⟩⟩ (.get "k")).1
        ≠ WorkerOutcome.next := by decide

/-- C4 amended: for every action and every file-system behavior, when the
caller has abandoned the request (reply receiver dropped) the worker's
`resp.send(..).unwrap()` panics the worker task — the failure is not
swallowed. -/
theorem c4_reply_send_failure_panics (env : Option ErrorKind)
    (s : StoreState) (a : Action) :
    (processOne env false s a).1 = .panicked := by
  rcases h : applyAction env s a with ⟨resp, s2⟩
  simp [processOne, oneshotSend, h]

/-- C5 counterexample: with the dispatch queue closed and empty, the claim
says the worker exits its loop and terminates normally; but
`rv.recv().await.unwrap()` unwraps `recv`'s `None` and panics instead. -/
theorem c5_closed_queue_counterexample :
    workerPull [] true = .panicked
    ∧ workerPull [] true ≠ PullOutcome.exitedLoop := by decide

/-- C5 amended: when the queue is closed and empty, `recv` yields no action
(`closedEmpty`) and the worker's `unwrap` of it panics the task; the loop is
never exited normally. -/
theorem c5_closed_queue_recv_panics :
    workerPull [] true = .panicked
    ∧ mpscRecv [] true = .closedEmpty := by decide

/-- C6 counterexample: deleting a key absent from both the cache and the
on-disk root replies with the `NotFound` error from `fs::remove_file`, not
with success-and-absent as the claim states. -/
theorem c6_del_missing_counterexample :
    (applyAction none ⟨[], ⟨true, []⟩⟩ (.del "k")).1 = .val (.error .notFound)
    ∧ (applyAction none ⟨[], ⟨true, []⟩⟩ (.del "k")).1
        ≠ .val (.ok none) := by decide

/-- C6 amended: for every key with no file under the root, `Del` fails with
`NotFound` (the file-removal error is propagated) and the cache is left
unchanged — deleting a missing key is an error in this code. -/
theorem c6_del_missing_errors (s : StoreState) (k : String)
    (h : assocLookup s.disk.files k = none) :
    (applyAction none s (.del k)).1 = .val (.error .notFound)
    ∧ (applyAction none s (.del k)).2.db = s.db := by
  have hr : fsRemoveFile none s.disk k = (.error .notFound, s.disk) := by
    simp [fsRemoveFile, h]
  constructor <;> simp [applyAction, remove_from_file_r, hr]

/-- Witness for C6: a cache entry for a different key, an existing but empty
root: deleting "gone" errors and the cache keeps its entry. -/
theorem c6_del_missing_errors_witness :
    (applyAction none ⟨[("cached", "x")], ⟨true, []⟩⟩ (.del "gone")).1
      = .val (.error .notFound)
    ∧ (applyAction none ⟨[("cached", "x")], ⟨true, []⟩⟩ (.del "gone")).2.db
      = [("cached", "x")] := by
  have h := c6_del_missing_errors ⟨[("cached", "x")], ⟨true, []⟩⟩ "gone"
    (by decide)
  exact ⟨h.1, h.2⟩

/-- C7 counterexample: with a wipe failure injected (`PermissionDenied`, not
a "root does not exist" condition), the claim says the failure is surfaced
and the cache left untouched; but `clear_from_file` discards the
`remove_dir_all` result, so `Clear` replies success and empties the cache —
while the files are in fact still on disk. -/
theorem c7_clear_failure_swallowed_counterexample :
    applyAction (some .permissionDenied)
        ⟨[("k", "v")], ⟨true, [("k", "v")]⟩⟩ .clear
      = (.unit (.ok ()), ⟨[], ⟨true, [("k", "v")]⟩⟩)
    ∧ (Response.unit (.ok ()) : Response)
        ≠ .unit (.error .permissionDenied) := by decide

/-- C7 amended: `Clear` unconditionally reports success and unconditionally
empties the cache, for every disk state and every injected wipe failure —
"root does not exist" included (so that half of the claim holds), but every
other wipe failure is swallowed rather than surfaced. -/
theorem c7_clear_always_succeeds (env : Option ErrorKind) (s : StoreState) :
    applyAction env s .clear
      = (.unit (.ok ()), ⟨[], (fsRemoveDirAll env s.disk).2⟩) := by
  rcases h : fsRemoveDirAll env s.disk with ⟨r, d⟩
  simp [applyAction, clear_from_file_r, h]

/-- C8: when the file write succeeds, `Set(k, v)` replies with the previous
in-memory value `assocLookup s.db k` — which is independent of the disk, so a
key absent from the cache yields an absent previous value even when a file
for it exists — and a `Get` never writes the cache (no warming on miss). -/
theorem c8_set_returns_previous_cached (env : Option ErrorKind)
    (s : StoreState) (k v : String)
    (h : (fsWrite env s.disk k v).1 = .ok ()) :
    (applyAction env s (.set k v)).1 = .val (.ok (assocLookup s.db k))
    ∧ (applyAction env s (.get k)).2.db = s.db := by
  constructor
  · rcases hq : fsWrite env s.disk k v with ⟨r, d⟩
    rw [hq] at h
    cases r with
    | error e => exact absurd h (by simp)
    | ok u => simp [applyAction, save_to_file_r, hq]
  · rcases hl : assocLookup s.db k with _ | v0
    · rcases hg : get_from_file_r env s.disk k with ⟨r, d⟩
      simp [applyAction, hl, hg]
    · simp [applyAction, hl]

/-- Witness for C8: empty cache but a file for "k" already on disk — the
`Set` succeeds and the reported previous value is absent, and a `Get` leaves
the cache untouched. -/
theorem c8_set_returns_previous_cached_witness :
    (applyAction none ⟨[], ⟨true, [("k", "ondisk")]⟩⟩ (.set "k" "v")).1
      = .val (.ok none)
    ∧ (applyAction none ⟨[], ⟨true, [("k", "ondisk")]⟩⟩ (.get "k")).2.db
      = ([] : List (String × String)) := by
  have h := c8_set_returns_previous_cached none
    ⟨[], ⟨true, [("k", "ondisk")]⟩⟩ "k" "v" (by decide)
  exact ⟨h.1, h.2⟩

theorem pollLoop_allFinished (sched : List Bool → List Bool) :
    ∀ (fuel : Nat) (hs hs2 : List Bool),
      pollLoop sched fuel hs = some hs2 → allFinished hs2 = true := by
  intro fuel
  induction fuel with
  | zero =>
      intro hs hs2 h
      simp [pollLoop] at h
  | succ f ih =>
      intro hs hs2 h
      simp only [pollLoop] at h
      split at h
      · rename_i hfin
        cases h
        exact hfin
      · exact ih (sched hs) hs2 h

/-- C9: whenever `Store::close` returns (the polling loop observed every
worker task finished), all workers have terminated and the queue's receiving
end is closed, so every subsequent call funnelled through
`send_single_record_action` fails immediately with `ConnectionRefused` — a
dispatch failure, distinct from the persistence failures' kinds. -/
theorem c9_close_terminates_and_refuses (sched : List Bool → List Bool)
    (fuel : Nat) (st st2 : StoreHandle)
    (h : storeClose sched fuel st = some st2) :
    allFinished st2.handlers = true
    ∧ st2.receiverClosed = true
    ∧ (∀ (T : Type) (reply : Option (Except ErrorKind T)),
        send_single_record_action st2.receiverClosed reply
          = .error .connectionRefused)
    ∧ ErrorKind.connectionRefused ≠ ErrorKind.notFound := by
  rcases hp : pollLoop sched fuel st.handlers with _ | hs
  · rw [storeClose, hp] at h
    cases h
  · rw [storeClose, hp] at h
    cases h
    refine ⟨pollLoop_allFinished sched fuel st.handlers hs hp, rfl, ?_,
      by decide⟩
    intro T reply
    simp [send_single_record_action]

/-- Witness for C9: two unfinished workers, a scheduler that finishes both
during the first 200 ms sleep, one round of fuel. -/
theorem c9_close_terminates_and_refuses_witness :
    allFinished (([true, true] : List Bool)) = true
    ∧ (({ handlers := [true, true], receiverClosed := true } :
          StoreHandle)).receiverClosed = true
    ∧ send_single_record_action true
        (some (Except.ok (some "x"))) = Except.error ErrorKind.connectionRefused
    ∧ ErrorKind.connectionRefused ≠ ErrorKind.notFound := by
  have h := c9_close_terminates_and_refuses (fun l => l.map (fun _ => true)) 1
    ⟨[false, false], false⟩ ⟨[true, true], true⟩ (by decide)
  exact ⟨h.1, h.2.1, h.2.2.1 (Option String) (some (Except.ok (some "x"))),
    h.2.2.2⟩

/-- C10: `Client::close` on a fresh handle takes the store out of the
optional slot and succeeds; a second call finds the slot empty and its
`self.store.take().unwrap()` panics — close is not idempotent at the handle
level. -/
theorem c10_second_close_panics :
    clientCloseOnce ⟨some ()⟩ = .closedOk ⟨none⟩
    ∧ clientCloseOnce ⟨none⟩ = .panicked := by decide

end Diskcache
